import Mathlib

/-!
Shallow embedding of `src/laszip/vlr.rs` from the laz-rs repository:
the LazVlr compression header (item types, compressor types, exact
little-endian wire layout, builders) together with theorems checking the
specification's claims about it.

Byte streams are modelled as `List Nat` (each element a byte value `< 256`);
multi-byte integers are composed little-endian.  Fallible Rust functions
returning `crate::Result` are modelled with `Except LasZipError`; functions
that panic are modelled with `Option` (`none` = panic).
-/

namespace LazRs

/-- Little-endian encoding of `v` on `k` bytes, mirroring byteorder's
`write_u16::<LittleEndian>` etc. (truncation to `k` bytes is implicit). -/
def leBytes : Nat → Nat → List Nat
  | 0, _ => []
  | k + 1, v => v % 256 :: leBytes k (v / 256)

/-- Little-endian read of `k` bytes from the front of a stream, mirroring
byteorder's `read_u16::<LittleEndian>` etc.; `none` when the stream is too
short (an I/O error in the source). -/
def leVal : Nat → List Nat → Option (Nat × List Nat)
  | 0, rest => some (0, rest)
  | _ + 1, [] => none
  | k + 1, b :: bs =>
    match leVal k bs with
    | none => none
    | some (v, rest) => some (b + 256 * v, rest)

/-- Every element of the stream is a byte value. -/
def allBytes (b : List Nat) : Prop := ∀ x ∈ b, x < 256

theorem leBytes_length (k v : Nat) : (leBytes k v).length = k := by
  induction k generalizing v with
  | zero => rfl
  | succ n ih => simp [leBytes, ih]

/-- Reading back `k` little-endian bytes of `v` recovers `v % 256^k` and
leaves the rest of the stream untouched. -/
theorem leVal_leBytes (k v : Nat) (rest : List Nat) :
    leVal k (leBytes k v ++ rest) = some (v % 256 ^ k, rest) := by
  induction k generalizing v with
  | zero => simp [leBytes, leVal, Nat.mod_one]
  | succ n ih =>
    simp only [leBytes, List.cons_append, leVal]
    rw [List.append_eq, ih (v / 256)]
    have h : v % 256 + 256 * (v / 256 % 256 ^ n) = v % 256 ^ (n + 1) := by
      rw [pow_succ' 256 n, Nat.mod_mul]
    simp [h]

theorem leBytes_lt (k v : Nat) : ∀ x ∈ leBytes k v, x < 256 := by
  induction k generalizing v with
  | zero => simp [leBytes]
  | succ n ih =>
    intro x hx
    simp only [leBytes, List.mem_cons] at hx
    rcases hx with h | h
    · omega
    · exact ih (v / 256) x h

/-- Inversion for `leVal`: a successful read of `k` bytes from a stream of
byte values determines the value's bound, the rest stream, and that
re-encoding the value reproduces the consumed prefix. -/
theorem leVal_inv (k : Nat) (b : List Nat) (v : Nat) (rest : List Nat)
    (hb : allBytes b) (h : leVal k b = some (v, rest)) :
    v < 256 ^ k ∧ allBytes rest ∧ leBytes k v ++ rest = b := by
  induction k generalizing b v rest with
  | zero =>
    simp only [leVal, Option.some.injEq, Prod.mk.injEq] at h
    obtain ⟨hv, hr⟩ := h
    subst hv; subst hr
    exact ⟨by norm_num, hb, rfl⟩
  | succ n ih =>
    match b with
    | [] => simp [leVal] at h
    | x :: bs =>
      have hx : x < 256 := hb x (List.mem_cons_self x bs)
      have hbs : allBytes bs := fun y hy => hb y (List.mem_cons_of_mem x hy)
      simp only [leVal] at h
      cases hrec : leVal n bs with
      | none => rw [hrec] at h; simp at h
      | some p =>
        obtain ⟨w, rest'⟩ := p
        rw [hrec] at h
        simp only [Option.some.injEq, Prod.mk.injEq] at h
        obtain ⟨hv, hr⟩ := h
        obtain ⟨hwlt, hrest, henc⟩ := ih bs w rest' hbs hrec
        subst hv; subst hr
        refine ⟨?_, hrest, ?_⟩
        · have : 256 ^ (n + 1) = 256 * 256 ^ n := by ring
          omega
        · have h1 : (x + 256 * w) % 256 = x := by omega
          have h2 : (x + 256 * w) / 256 = w := by omega
          simp [leBytes, h1, h2, henc]

/-- Two's-complement reinterpretation of a 64-bit unsigned value, as done by
byteorder's `read_i64::<LittleEndian>`. -/
def u64ToI64 (u : Nat) : Int :=
  if u < 2 ^ 63 then (u : Int) else (u : Int) - 2 ^ 64

/-- Little-endian read of an `i64`, mirroring `read_i64::<LittleEndian>`. -/
def readI64 (b : List Nat) : Option (Int × List Nat) :=
  match leVal 8 b with
  | none => none
  | some (u, rest) => some (u64ToI64 u, rest)

/-- Little-endian two's-complement encoding of an `i64`, mirroring
`write_i64::<LittleEndian>`. -/
def i64Bytes (v : Int) : List Nat :=
  leBytes 8 (v % (18446744073709551616 : Int)).toNat

theorem readI64_i64Bytes (v : Int) (rest : List Nat)
    (hlo : -(2 ^ 63) ≤ v) (hhi : v < 2 ^ 63) :
    readI64 (i64Bytes v ++ rest) = some (v, rest) := by
  unfold readI64 i64Bytes
  rw [leVal_leBytes]
  have h1 : (v % (18446744073709551616 : Int)).toNat < 2 ^ 64 := by omega
  have h256 : (256 : Nat) ^ 8 = 2 ^ 64 := by norm_num
  rw [h256, Nat.mod_eq_of_lt h1]
  show some (u64ToI64 ((v % (18446744073709551616 : Int)).toNat), rest) = some (v, rest)
  have h2 : u64ToI64 ((v % (18446744073709551616 : Int)).toNat) = v := by
    unfold u64ToI64; split <;> omega
  rw [h2]

theorem readI64_inv (b : List Nat) (v : Int) (rest : List Nat)
    (hb : allBytes b) (h : readI64 b = some (v, rest)) :
    -(2 ^ 63) ≤ v ∧ v < 2 ^ 63 ∧ allBytes rest ∧ i64Bytes v ++ rest = b := by
  unfold readI64 at h
  cases hu : leVal 8 b with
  | none => rw [hu] at h; simp at h
  | some p =>
    obtain ⟨u, rest'⟩ := p
    rw [hu] at h
    simp only [Option.some.injEq, Prod.mk.injEq] at h
    obtain ⟨hv, hr⟩ := h
    obtain ⟨hult, hrest, henc⟩ := leVal_inv 8 b u rest' hb hu
    subst hr
    have hval : (v % (18446744073709551616 : Int)).toNat = u := by
      subst hv; unfold u64ToI64; norm_num at hult ⊢; split <;> omega
    refine ⟨?_, ?_, hrest, ?_⟩
    · subst hv; unfold u64ToI64; split <;> omega
    · subst hv; unfold u64ToI64; split <;> omega
    · unfold i64Bytes; rw [hval]; exact henc

/-! ### Data model (from `src/laszip/vlr.rs`) -/

/-- Default chunk size constant `DEFAULT_CHUNK_SIZE` (50_000). -/
def DEFAULT_CHUNK_SIZE : Nat := 50000

/-- `Version { major: u8, minor: u8, revision: u16 }`. -/
structure Version where
  major : Nat
  minor : Nat
  revision : Nat
  deriving Repr, DecidableEq

/-- `Version::default()` is `(2, 2, 0)`. -/
def Version.default : Version := { major := 2, minor := 2, revision := 0 }

/-- `Version::read_from`. -/
def Version.read_from (b : List Nat) : Option (Version × List Nat) :=
  match leVal 1 b with
  | none => none
  | some (major, b1) =>
    match leVal 1 b1 with
    | none => none
    | some (minor, b2) =>
      match leVal 2 b2 with
      | none => none
      | some (revision, b3) => some ({ major, minor, revision }, b3)

/-- `Version::write_to`. -/
def Version.write_to (v : Version) : List Nat :=
  leBytes 1 v.major ++ leBytes 1 v.minor ++ leBytes 2 v.revision

/-- `enum LazItemType`: the closed set of field kinds; the two extra-bytes
variants carry their size payload. -/
inductive LazItemType where
  | Byte (size : Nat)
  | Point10
  | GpsTime
  | RGB12
  | Point14
  | RGB14
  | RGBNIR14
  | Byte14 (size : Nat)
  deriving Repr, DecidableEq, Inhabited

/-- Modelled from the spec: `Point0::SIZE` lives in `crate::las` (not under
`src/`); the spec treats point-layout widths as externally supplied
constants ("fixed width of that point layout").  A LAS point-format-0
record is 20 bytes. -/
def POINT0_SIZE : Nat := 20

/-- Modelled from the spec: `Point6::SIZE` from `crate::las` (not under
`src/`); a LAS point-format-6 record is 30 bytes. -/
def POINT6_SIZE : Nat := 30

/-- Modelled from the spec: `RGB::SIZE` from `crate::las` (not under
`src/`); three u16 color channels, 6 bytes. -/
def RGB_SIZE : Nat := 6

/-- Modelled from the spec: `Nir::SIZE` from `crate::las` (not under
`src/`); one u16 near-infrared channel, 2 bytes. -/
def NIR_SIZE : Nat := 2

/-- `LazItemType::from_u16(item_type, size)`. -/
def LazItemType.from_u16 (t size : Nat) : Option LazItemType :=
  if t = 0 then some (LazItemType.Byte size)
  else if t = 6 then some LazItemType.Point10
  else if t = 7 then some LazItemType.GpsTime
  else if t = 8 then some LazItemType.RGB12
  else if t = 10 then some LazItemType.Point14
  else if t = 11 then some LazItemType.RGB14
  else if t = 12 then some LazItemType.RGBNIR14
  else if t = 14 then some (LazItemType.Byte14 size)
  else none

/-- `LazItemType::size(&self)`: the inherent byte width (or the stored
extra-byte count); `GpsTime` is `size_of::<f64>() = 8`. -/
def LazItemType.size : LazItemType → Nat
  | LazItemType.Byte s => s
  | LazItemType.Point10 => POINT0_SIZE
  | LazItemType.GpsTime => 8
  | LazItemType.RGB12 => RGB_SIZE
  | LazItemType.Point14 => POINT6_SIZE
  | LazItemType.RGB14 => RGB_SIZE
  | LazItemType.RGBNIR14 => RGB_SIZE + NIR_SIZE
  | LazItemType.Byte14 s => s

/-- `LazItemType::default_version(self)`. -/
def LazItemType.default_version : LazItemType → Nat
  | LazItemType.Byte _ => 2
  | LazItemType.Point10 => 2
  | LazItemType.GpsTime => 2
  | LazItemType.RGB12 => 2
  | LazItemType.Point14 => 3
  | LazItemType.RGB14 => 3
  | LazItemType.RGBNIR14 => 3
  | LazItemType.Byte14 _ => 3

/-- `impl From<LazItemType> for u16`: the wire code of each variant. -/
def LazItemType.toCode : LazItemType → Nat
  | LazItemType.Byte _ => 0
  | LazItemType.Point10 => 6
  | LazItemType.GpsTime => 7
  | LazItemType.RGB12 => 8
  | LazItemType.Point14 => 10
  | LazItemType.RGB14 => 11
  | LazItemType.RGBNIR14 => 12
  | LazItemType.Byte14 _ => 14

/-- `enum LasZipError` (only the variants reachable from this module; the
`std::io::Error` payload of I/O failures is collapsed). -/
inductive LasZipError where
  | UnknownLazItem (t : Nat)
  | UnknownCompressorType (t : Nat)
  | UnsupportedPointFormat (id : Nat)
  | IoError
  deriving Repr, DecidableEq

/-- `struct LazItem { item_type, size: u16, version: u16 }`. -/
structure LazItem where
  item_type : LazItemType
  size : Nat
  version : Nat
  deriving Repr, DecidableEq, Inhabited

/-- `LazItem::new(item_type, version)`: stamps the type's inherent size. -/
def LazItem.new (t : LazItemType) (version : Nat) : LazItem :=
  { item_type := t, size := t.size, version }

/-- `LazItem::read_from`: reads type code, size, checks the code, then reads
the version. -/
def LazItem.read_from (b : List Nat) : Except LasZipError (LazItem × List Nat) :=
  match leVal 2 b with
  | none => Except.error LasZipError.IoError
  | some (t, b1) =>
    match leVal 2 b1 with
    | none => Except.error LasZipError.IoError
    | some (size, b2) =>
      match LazItemType.from_u16 t size with
      | none => Except.error (LasZipError.UnknownLazItem t)
      | some item_type =>
        match leVal 2 b2 with
        | none => Except.error LasZipError.IoError
        | some (version, b3) => Except.ok ({ item_type, size, version }, b3)

/-- `LazItem::write_to`: code, size, version, each as little-endian u16. -/
def LazItem.write_to (it : LazItem) : List Nat :=
  leBytes 2 it.item_type.toCode ++ leBytes 2 it.size ++ leBytes 2 it.version

/-- `enum CompressorType`. -/
inductive CompressorType where
  | None
  | PointWise
  | PointWiseChunked
  | LayeredChunked
  deriving Repr, DecidableEq

/-- The `u16` discriminant of each `CompressorType` (`self as u16`). -/
def CompressorType.toU16 : CompressorType → Nat
  | CompressorType.None => 0
  | CompressorType.PointWise => 1
  | CompressorType.PointWiseChunked => 2
  | CompressorType.LayeredChunked => 3

/-- `CompressorType::from_u16`. -/
def CompressorType.from_u16 (t : Nat) : Option CompressorType :=
  if t = 0 then some CompressorType.None
  else if t = 1 then some CompressorType.PointWise
  else if t = 2 then some CompressorType.PointWiseChunked
  else if t = 3 then some CompressorType.LayeredChunked
  else none

/-- `CompressorType::from_item_version`: 1 | 2 ⇒ PointWiseChunked,
3 | 4 ⇒ LayeredChunked, otherwise none. -/
def CompressorType.from_item_version (v : Nat) : Option CompressorType :=
  if v = 1 ∨ v = 2 then some CompressorType.PointWiseChunked
  else if v = 3 ∨ v = 4 then some CompressorType.LayeredChunked
  else none

/-- Whether an extra-bytes payload agrees with the separately stored size
field (trivially true for the fixed-size variants). -/
def LazItemType.payloadOk : LazItemType → Nat → Bool
  | LazItemType.Byte s, n => decide (s = n)
  | LazItemType.Byte14 s, n => decide (s = n)
  | _, _ => true

/-- Width/consistency invariant maintained by the crate's public `LazItem`
constructors (`LazItem::new`, the record builders, and decoding): the u16
fields fit 16 bits and an extra-bytes payload agrees with the size field. -/
def LazItem.wfb (it : LazItem) : Bool :=
  decide (it.size < 65536) && decide (it.version < 65536) &&
    it.item_type.payloadOk it.size

/-- `read_laz_items_from`'s loop body: read `n` consecutive items. -/
def readLazItemsLoop : Nat → List Nat → Except LasZipError (List LazItem × List Nat)
  | 0, b => Except.ok ([], b)
  | n + 1, b =>
    match LazItem.read_from b with
    | Except.error e => Except.error e
    | Except.ok (it, b1) =>
      match readLazItemsLoop n b1 with
      | Except.error e => Except.error e
      | Except.ok (its, b2) => Except.ok (it :: its, b2)

/-- `read_laz_items_from`: u16 item count, then that many items. -/
def read_laz_items_from (b : List Nat) : Except LasZipError (List LazItem × List Nat) :=
  match leVal 2 b with
  | none => Except.error LasZipError.IoError
  | some (n, b1) => readLazItemsLoop n b1

/-- The item payloads written by `write_laz_items_to`'s loop. -/
def writeItemsBody : List LazItem → List Nat
  | [] => []
  | it :: rest => it.write_to ++ writeItemsBody rest

/-- `write_laz_items_to`: the item count `laz_items.len() as u16`
(truncation modulo 2^16), then every item. -/
def write_laz_items_to (items : List LazItem) : List Nat :=
  leBytes 2 (items.length % 65536) ++ writeItemsBody items

/-- `struct LazVlr`. -/
structure LazVlr where
  compressor : CompressorType
  coder : Nat
  version : Version
  options : Nat
  chunk_size : Nat
  number_of_special_evlrs : Int
  offset_to_special_evlrs : Int
  items : List LazItem
  deriving Repr, DecidableEq

namespace LazVlr

/-- Sentinel `LazVlr::VARIABLE_CHUNK_SIZE = u32::MAX`. -/
def VARIABLE_CHUNK_SIZE : Nat := 4294967295

/-- `LazVlr::from_laz_items`.  The source panics (`expect`) when the item
list is empty or the first item's version is unknown; panic is modelled as
`none`. -/
def from_laz_items (items : List LazItem) : Option LazVlr :=
  match items.head? with
  | none => none
  | some first_item =>
    match CompressorType.from_item_version first_item.version with
    | none => none
    | some compressor =>
      some
        { compressor
          coder := 0
          version := Version.default
          options := 0
          chunk_size := DEFAULT_CHUNK_SIZE
          number_of_special_evlrs := -1
          offset_to_special_evlrs := -1
          items }

/-- `LazVlr::read_from`: compressor code (checked), coder, version, options,
chunk_size, the two EVLR i64s, then the item list. -/
def read_from (b : List Nat) : Except LasZipError (LazVlr × List Nat) :=
  match leVal 2 b with
  | none => Except.error LasZipError.IoError
  | some (compressor_type, b1) =>
    match CompressorType.from_u16 compressor_type with
    | none => Except.error (LasZipError.UnknownCompressorType compressor_type)
    | some compressor =>
      match leVal 2 b1 with
      | none => Except.error LasZipError.IoError
      | some (coder, b2) =>
        match Version.read_from b2 with
        | none => Except.error LasZipError.IoError
        | some (version, b3) =>
          match leVal 4 b3 with
          | none => Except.error LasZipError.IoError
          | some (options, b4) =>
            match leVal 4 b4 with
            | none => Except.error LasZipError.IoError
            | some (chunk_size, b5) =>
              match readI64 b5 with
              | none => Except.error LasZipError.IoError
              | some (number_of_special_evlrs, b6) =>
                match readI64 b6 with
                | none => Except.error LasZipError.IoError
                | some (offset_to_special_evlrs, b7) =>
                  match read_laz_items_from b7 with
                  | Except.error e => Except.error e
                  | Except.ok (items, b8) =>
                    Except.ok
                      ({ compressor, coder, version, options, chunk_size,
                         number_of_special_evlrs, offset_to_special_evlrs,
                         items }, b8)

/-- `LazVlr::write_to`: the exact inverse layout. -/
def write_to (v : LazVlr) : List Nat :=
  leBytes 2 v.compressor.toU16 ++ leBytes 2 v.coder ++ v.version.write_to ++
    leBytes 4 v.options ++ leBytes 4 v.chunk_size ++
    i64Bytes v.number_of_special_evlrs ++ i64Bytes v.offset_to_special_evlrs ++
    write_laz_items_to v.items

/-- `LazVlr::uses_variable_size_chunks`. -/
def uses_variable_size_chunks (v : LazVlr) : Bool :=
  v.chunk_size == VARIABLE_CHUNK_SIZE

/-- `LazVlr::items_size`: `u64::from(self.items.iter().map(|i| i.size).sum::<u16>())`
— the sum is taken in u16 (wrapping modulo 2^16 with release-profile
semantics) and only then widened to u64. -/
def items_size (v : LazVlr) : Nat :=
  v.items.foldl (fun acc it => (acc + it.size) % 65536) 0

/-- Width/consistency invariant maintained by the crate for every `LazVlr`
reachable through its public constructors: each numeric field fits the
declared Rust integer type and the items are well formed. -/
def wfb (v : LazVlr) : Bool :=
  decide (v.coder < 65536) && decide (v.version.major < 256) &&
    decide (v.version.minor < 256) && decide (v.version.revision < 65536) &&
    decide (v.options < 4294967296) && decide (v.chunk_size < 4294967296) &&
    decide (-(2 ^ 63) ≤ v.number_of_special_evlrs) &&
    decide (v.number_of_special_evlrs < 2 ^ 63) &&
    decide (-(2 ^ 63) ≤ v.offset_to_special_evlrs) &&
    decide (v.offset_to_special_evlrs < 2 ^ 63) &&
    decide (v.items.length < 65536) && v.items.all LazItem.wfb

end LazVlr

/-! ### Builders -/

/-- Stamp each item type with its inherent size and default version, as
`LazItemRecordBuilder::build` does. -/
def stampDefaults (types : List LazItemType) : List LazItem :=
  types.map fun t => { item_type := t, size := t.size, version := t.default_version }

/-- `struct LazItemRecordBuilder { items: Vec<LazItemType> }`. -/
structure LazItemRecordBuilder where
  items : List LazItemType

namespace LazItemRecordBuilder

/-- `LazItemRecordBuilder::new`. -/
def new : LazItemRecordBuilder := { items := [] }

/-- `LazItemRecordBuilder::add_item`. -/
def add_item (b : LazItemRecordBuilder) (t : LazItemType) : LazItemRecordBuilder :=
  { items := b.items ++ [t] }

/-- `LazItemRecordBuilder::build`. -/
def build (b : LazItemRecordBuilder) : List LazItem :=
  stampDefaults b.items

/-- Modelled from the spec: `Point0`'s `DefaultVersion` impl lives in
`crate::las` (not under `src/`).  Point format 0 is legacy-shaped, so its
default item list is the legacy point record (plus a legacy extra-bytes
item when requested), stamped with the legacy default version 2. -/
def point0DefaultItems (num_extra_bytes : Nat) : List LazItem :=
  stampDefaults
    (LazItemType.Point10 ::
      (if num_extra_bytes > 0 then [LazItemType.Byte num_extra_bytes] else []))

/-- Modelled from the spec: `Point1`'s `DefaultVersion` impl (`crate::las`,
not under `src/`): legacy point record and GPS time, default version 2. -/
def point1DefaultItems (num_extra_bytes : Nat) : List LazItem :=
  stampDefaults
    (LazItemType.Point10 :: LazItemType.GpsTime ::
      (if num_extra_bytes > 0 then [LazItemType.Byte num_extra_bytes] else []))

/-- Modelled from the spec: `Point2`'s `DefaultVersion` impl (`crate::las`,
not under `src/`): legacy point record and color, default version 2. -/
def point2DefaultItems (num_extra_bytes : Nat) : List LazItem :=
  stampDefaults
    (LazItemType.Point10 :: LazItemType.RGB12 ::
      (if num_extra_bytes > 0 then [LazItemType.Byte num_extra_bytes] else []))

/-- Modelled from the spec: `Point3`'s `DefaultVersion` impl (`crate::las`,
not under `src/`): legacy point record, GPS time and color, default
version 2. -/
def point3DefaultItems (num_extra_bytes : Nat) : List LazItem :=
  stampDefaults
    (LazItemType.Point10 :: LazItemType.GpsTime :: LazItemType.RGB12 ::
      (if num_extra_bytes > 0 then [LazItemType.Byte num_extra_bytes] else []))

/-- Modelled from the spec: `Point6`'s `DefaultVersion` impl (`crate::las`,
not under `src/`).  Point format 6 is extended-shaped, so its default item
list is the extended point record (plus an extended extra-bytes item when
requested), stamped with the extended default version 3. -/
def point6DefaultItems (num_extra_bytes : Nat) : List LazItem :=
  stampDefaults
    (LazItemType.Point14 ::
      (if num_extra_bytes > 0 then [LazItemType.Byte14 num_extra_bytes] else []))

/-- Modelled from the spec: `Point7`'s `DefaultVersion` impl (`crate::las`,
not under `src/`): extended point record and extended color, default
version 3. -/
def point7DefaultItems (num_extra_bytes : Nat) : List LazItem :=
  stampDefaults
    (LazItemType.Point14 :: LazItemType.RGB14 ::
      (if num_extra_bytes > 0 then [LazItemType.Byte14 num_extra_bytes] else []))

/-- Modelled from the spec: `Point8`'s `DefaultVersion` impl (`crate::las`,
not under `src/`): extended point record and extended color+NIR, default
version 3. -/
def point8DefaultItems (num_extra_bytes : Nat) : List LazItem :=
  stampDefaults
    (LazItemType.Point14 :: LazItemType.RGBNIR14 ::
      (if num_extra_bytes > 0 then [LazItemType.Byte14 num_extra_bytes] else []))

/-- `LazItemRecordBuilder::default_for_point_format_id`: the match on the
point-format id from the source, dispatching to the per-format
`DefaultVersion` item lists. -/
def default_for_point_format_id (point_format_id : Nat) (num_extra_bytes : Nat) :
    Except LasZipError (List LazItem) :=
  if point_format_id = 0 then Except.ok (point0DefaultItems num_extra_bytes)
  else if point_format_id = 1 then Except.ok (point1DefaultItems num_extra_bytes)
  else if point_format_id = 2 then Except.ok (point2DefaultItems num_extra_bytes)
  else if point_format_id = 3 then Except.ok (point3DefaultItems num_extra_bytes)
  else if point_format_id = 6 then Except.ok (point6DefaultItems num_extra_bytes)
  else if point_format_id = 7 then Except.ok (point7DefaultItems num_extra_bytes)
  else if point_format_id = 8 then Except.ok (point8DefaultItems num_extra_bytes)
  else Except.error (LasZipError.UnsupportedPointFormat point_format_id)

end LazItemRecordBuilder

/-- `struct LazVlrBuilder { items, chunk_size }`. -/
structure LazVlrBuilder where
  items : List LazItem
  chunk_size : Nat

namespace LazVlrBuilder

/-- `LazVlrBuilder::default()`. -/
def mkDefault : LazVlrBuilder := { items := [], chunk_size := DEFAULT_CHUNK_SIZE }

/-- `LazVlrBuilder::new(laz_items)`. -/
def new (laz_items : List LazItem) : LazVlrBuilder :=
  { items := laz_items, chunk_size := DEFAULT_CHUNK_SIZE }

/-- `LazVlrBuilder::with_point_format`. -/
def with_point_format (b : LazVlrBuilder) (point_format_id num_extra_bytes : Nat) :
    Except LasZipError LazVlrBuilder :=
  match LazItemRecordBuilder.default_for_point_format_id point_format_id num_extra_bytes with
  | Except.error e => Except.error e
  | Except.ok its => Except.ok { b with items := its }

/-- `LazVlrBuilder::with_laz_items`. -/
def with_laz_items (b : LazVlrBuilder) (laz_items : List LazItem) : LazVlrBuilder :=
  { b with items := laz_items }

/-- `LazVlrBuilder::with_fixed_chunk_size`. -/
def with_fixed_chunk_size (b : LazVlrBuilder) (chunk_size : Nat) : LazVlrBuilder :=
  { b with chunk_size := chunk_size }

/-- `LazVlrBuilder::with_variable_chunk_size`. -/
def with_variable_chunk_size (b : LazVlrBuilder) : LazVlrBuilder :=
  { b with chunk_size := LazVlr.VARIABLE_CHUNK_SIZE }

/-- `LazVlrBuilder::build`: `LazVlr::from_laz_items` then overwrite
`chunk_size`; the `from_laz_items` panic is modelled as `none`. -/
def build (b : LazVlrBuilder) : Option LazVlr :=
  match LazVlr.from_laz_items b.items with
  | none => none
  | some vlr => some { vlr with chunk_size := b.chunk_size }

end LazVlrBuilder

/-! ### Round-trip helper lemmas -/

theorem leVal1_leBytes (v : Nat) (rest : List Nat) :
    leVal 1 (leBytes 1 v ++ rest) = some (v % 256, rest) := by
  rw [leVal_leBytes]; norm_num

theorem leVal2_leBytes (v : Nat) (rest : List Nat) :
    leVal 2 (leBytes 2 v ++ rest) = some (v % 65536, rest) := by
  rw [leVal_leBytes]; norm_num

theorem leVal4_leBytes (v : Nat) (rest : List Nat) :
    leVal 4 (leBytes 4 v ++ rest) = some (v % 4294967296, rest) := by
  rw [leVal_leBytes]; norm_num

theorem LazItemType.toCode_lt (t : LazItemType) : t.toCode < 65536 := by
  cases t <;> simp [LazItemType.toCode]

theorem LazItemType.from_u16_toCode (ty : LazItemType) (s : Nat)
    (h : ty.payloadOk s = true) : LazItemType.from_u16 ty.toCode s = some ty := by
  cases ty <;> simp_all [LazItemType.payloadOk, LazItemType.toCode, LazItemType.from_u16]

theorem lazItemTypeFromU16Inv (t s : Nat) (ty : LazItemType)
    (h : LazItemType.from_u16 t s = some ty) :
    ty.toCode = t ∧ ty.payloadOk s = true := by
  unfold LazItemType.from_u16 at h
  split_ifs at h
  all_goals
    first
    | exact Option.noConfusion h
    | (injection h with h; subst h; simp_all [LazItemType.toCode, LazItemType.payloadOk])

theorem CompressorType.from_u16_toU16 (c : CompressorType) :
    CompressorType.from_u16 c.toU16 = some c := by
  cases c <;> rfl

theorem CompressorType.toU16_lt (c : CompressorType) : c.toU16 < 65536 := by
  cases c <;> simp [CompressorType.toU16]

theorem compressorTypeFromU16Inv (t : Nat) (c : CompressorType)
    (h : CompressorType.from_u16 t = some c) : c.toU16 = t := by
  unfold CompressorType.from_u16 at h
  split_ifs at h
  all_goals
    first
    | exact Option.noConfusion h
    | (injection h with h; subst h; simp_all [CompressorType.toU16])

theorem versionEncodeDecode (v : Version) (rest : List Nat)
    (h1 : v.major < 256) (h2 : v.minor < 256) (h3 : v.revision < 65536) :
    Version.read_from (v.write_to ++ rest) = some (v, rest) := by
  simp only [Version.write_to, List.append_assoc]
  simp only [Version.read_from, leVal1_leBytes, leVal2_leBytes,
    Nat.mod_eq_of_lt h1, Nat.mod_eq_of_lt h2, Nat.mod_eq_of_lt h3]

theorem versionDecodeInv (b : List Nat) (v : Version) (rest : List Nat)
    (hb : allBytes b) (h : Version.read_from b = some (v, rest)) :
    v.major < 256 ∧ v.minor < 256 ∧ v.revision < 65536 ∧ allBytes rest ∧
      v.write_to ++ rest = b := by
  unfold Version.read_from at h
  cases h1 : leVal 1 b with
  | none => simp only [h1] at h; exact Option.noConfusion h
  | some p1 =>
    obtain ⟨major, b1⟩ := p1
    simp only [h1] at h
    obtain ⟨hmaj, hb1, he1⟩ := leVal_inv 1 b major b1 hb h1
    cases h2 : leVal 1 b1 with
    | none => simp only [h2] at h; exact Option.noConfusion h
    | some p2 =>
      obtain ⟨minor, b2⟩ := p2
      simp only [h2] at h
      obtain ⟨hmin, hb2, he2⟩ := leVal_inv 1 b1 minor b2 hb1 h2
      cases h3 : leVal 2 b2 with
      | none => simp only [h3] at h; exact Option.noConfusion h
      | some p3 =>
        obtain ⟨revision, b3⟩ := p3
        simp only [h3] at h
        obtain ⟨hrev, hb3, he3⟩ := leVal_inv 2 b2 revision b3 hb2 h3
        simp only [Option.some.injEq, Prod.mk.injEq] at h
        obtain ⟨hv, hr⟩ := h
        subst hv; subst hr
        refine ⟨by norm_num at hmaj ⊢; omega, by norm_num at hmin ⊢; omega,
          by norm_num at hrev ⊢; omega, hb3, ?_⟩
        simp only [Version.write_to, List.append_assoc, he3, he2, he1]

theorem lazItemEncodeDecode (it : LazItem) (rest : List Nat)
    (h : it.wfb = true) :
    LazItem.read_from (it.write_to ++ rest) = Except.ok (it, rest) := by
  simp only [LazItem.wfb, Bool.and_eq_true, decide_eq_true_eq] at h
  obtain ⟨⟨hs, hv⟩, hpay⟩ := h
  have hcode := LazItemType.toCode_lt it.item_type
  simp only [LazItem.write_to, List.append_assoc]
  simp only [LazItem.read_from, leVal2_leBytes, Nat.mod_eq_of_lt hcode,
    Nat.mod_eq_of_lt hs, Nat.mod_eq_of_lt hv,
    LazItemType.from_u16_toCode it.item_type it.size hpay]

theorem lazItemDecodeInv (b : List Nat) (it : LazItem) (rest : List Nat)
    (hb : allBytes b) (h : LazItem.read_from b = Except.ok (it, rest)) :
    it.wfb = true ∧ allBytes rest ∧ it.write_to ++ rest = b := by
  unfold LazItem.read_from at h
  cases h1 : leVal 2 b with
  | none => simp only [h1] at h; exact Except.noConfusion h
  | some p1 =>
    obtain ⟨t, b1⟩ := p1
    simp only [h1] at h
    obtain ⟨ht, hb1, he1⟩ := leVal_inv 2 b t b1 hb h1
    cases h2 : leVal 2 b1 with
    | none => simp only [h2] at h; exact Except.noConfusion h
    | some p2 =>
      obtain ⟨size, b2⟩ := p2
      simp only [h2] at h
      obtain ⟨hsz, hb2, he2⟩ := leVal_inv 2 b1 size b2 hb1 h2
      cases h3 : LazItemType.from_u16 t size with
      | none => simp only [h3] at h; exact Except.noConfusion h
      | some item_type =>
        simp only [h3] at h
        obtain ⟨hcode, hpay⟩ := lazItemTypeFromU16Inv t size item_type h3
        cases h4 : leVal 2 b2 with
        | none => simp only [h4] at h; exact Except.noConfusion h
        | some p4 =>
          obtain ⟨version, b3⟩ := p4
          simp only [h4, Except.ok.injEq, Prod.mk.injEq] at h
          obtain ⟨hit, hr⟩ := h
          obtain ⟨hver, hb3, he3⟩ := leVal_inv 2 b2 version b3 hb2 h4
          subst hit; subst hr
          refine ⟨?_, hb3, ?_⟩
          · simp only [LazItem.wfb, Bool.and_eq_true, decide_eq_true_eq]
            refine ⟨⟨by norm_num at hsz ⊢; omega, by norm_num at hver ⊢; omega⟩, hpay⟩
          · simp only [LazItem.write_to, List.append_assoc, hcode, he3, he2, he1]

theorem readLazItemsLoop_encode_decode (items : List LazItem) (rest : List Nat)
    (h : items.all LazItem.wfb = true) :
    readLazItemsLoop items.length (writeItemsBody items ++ rest) =
      Except.ok (items, rest) := by
  induction items with
  | nil => simp [writeItemsBody, readLazItemsLoop]
  | cons it its ih =>
    simp only [List.all_cons, Bool.and_eq_true] at h
    obtain ⟨hit, hits⟩ := h
    simp only [writeItemsBody, List.length_cons, List.append_assoc, readLazItemsLoop,
      lazItemEncodeDecode it (writeItemsBody its ++ rest) hit, ih hits]

theorem readLazItemsLoop_inv (n : Nat) (b : List Nat) (items : List LazItem)
    (rest : List Nat) (hb : allBytes b)
    (h : readLazItemsLoop n b = Except.ok (items, rest)) :
    items.length = n ∧ items.all LazItem.wfb = true ∧ allBytes rest ∧
      writeItemsBody items ++ rest = b := by
  induction n generalizing b items rest with
  | zero =>
    simp only [readLazItemsLoop, Except.ok.injEq, Prod.mk.injEq] at h
    obtain ⟨hi, hr⟩ := h
    subst hi; subst hr
    exact ⟨rfl, rfl, hb, rfl⟩
  | succ m ih =>
    unfold readLazItemsLoop at h
    cases h1 : LazItem.read_from b with
    | error e => simp only [h1] at h; exact Except.noConfusion h
    | ok p1 =>
      obtain ⟨it, b1⟩ := p1
      simp only [h1] at h
      obtain ⟨hwf, hb1, he1⟩ := lazItemDecodeInv b it b1 hb h1
      cases h2 : readLazItemsLoop m b1 with
      | error e => simp only [h2] at h; exact Except.noConfusion h
      | ok p2 =>
        obtain ⟨its, b2⟩ := p2
        simp only [h2, Except.ok.injEq, Prod.mk.injEq] at h
        obtain ⟨hi, hr⟩ := h
        obtain ⟨hlen, hall, hb2, he2⟩ := ih b1 its b2 hb1 h2
        subst hi; subst hr
        refine ⟨by simp [hlen], by simp [hwf, hall], hb2, ?_⟩
        simp only [writeItemsBody, List.append_assoc, he2, he1]

/-- Encoding a well-formed `LazVlr` and decoding the result recovers the
value exactly and consumes exactly the written bytes. -/
theorem lazVlrEncodeDecode (v : LazVlr) (rest : List Nat)
    (h : v.wfb = true) :
    LazVlr.read_from (v.write_to ++ rest) = Except.ok (v, rest) := by
  simp only [LazVlr.wfb, Bool.and_eq_true, decide_eq_true_eq] at h
  obtain ⟨⟨⟨⟨⟨⟨⟨⟨⟨⟨⟨hcoder, hmaj⟩, hmin⟩, hrev⟩, hopt⟩, hcs⟩, hnlo⟩, hnhi⟩,
    holo⟩, hohi⟩, hlen⟩, hall⟩ := h
  have hcomp := CompressorType.toU16_lt v.compressor
  simp only [LazVlr.write_to, write_laz_items_to, List.append_assoc]
  simp only [LazVlr.read_from, leVal2_leBytes, Nat.mod_eq_of_lt hcomp,
    CompressorType.from_u16_toU16, Nat.mod_eq_of_lt hcoder,
    versionEncodeDecode v.version _ hmaj hmin hrev, leVal4_leBytes,
    Nat.mod_eq_of_lt hopt, Nat.mod_eq_of_lt hcs,
    readI64_i64Bytes v.number_of_special_evlrs _ hnlo hnhi,
    readI64_i64Bytes v.offset_to_special_evlrs _ holo hohi,
    read_laz_items_from, Nat.mod_eq_of_lt hlen,
    readLazItemsLoop_encode_decode v.items rest hall]

/-- Decoding inversion: a successful decode from a stream of byte values
yields a well-formed `LazVlr` whose re-encoding is exactly the consumed
prefix of the stream. -/
theorem lazVlrDecodeInv (b : List Nat) (v : LazVlr) (rest : List Nat)
    (hb : allBytes b) (h : LazVlr.read_from b = Except.ok (v, rest)) :
    v.wfb = true ∧ allBytes rest ∧ v.write_to ++ rest = b := by
  unfold LazVlr.read_from at h
  cases h1 : leVal 2 b with
  | none => simp only [h1] at h; exact Except.noConfusion h
  | some p1 =>
    obtain ⟨compressor_type, b1⟩ := p1
    simp only [h1] at h
    obtain ⟨hct, hb1, he1⟩ := leVal_inv 2 b compressor_type b1 hb h1
    cases h2 : CompressorType.from_u16 compressor_type with
    | none => simp only [h2] at h; exact Except.noConfusion h
    | some compressor =>
      simp only [h2] at h
      have hcode := compressorTypeFromU16Inv compressor_type compressor h2
      cases h3 : leVal 2 b1 with
      | none => simp only [h3] at h; exact Except.noConfusion h
      | some p3 =>
        obtain ⟨coder, b2⟩ := p3
        simp only [h3] at h
        obtain ⟨hcoder, hb2, he2⟩ := leVal_inv 2 b1 coder b2 hb1 h3
        cases h4 : Version.read_from b2 with
        | none => simp only [h4] at h; exact Except.noConfusion h
        | some p4 =>
          obtain ⟨version, b3⟩ := p4
          simp only [h4] at h
          obtain ⟨hmaj, hmin, hrev, hb3, he3⟩ := versionDecodeInv b2 version b3 hb2 h4
          cases h5 : leVal 4 b3 with
          | none => simp only [h5] at h; exact Except.noConfusion h
          | some p5 =>
            obtain ⟨options, b4⟩ := p5
            simp only [h5] at h
            obtain ⟨hopt, hb4, he4⟩ := leVal_inv 4 b3 options b4 hb3 h5
            cases h6 : leVal 4 b4 with
            | none => simp only [h6] at h; exact Except.noConfusion h
            | some p6 =>
              obtain ⟨chunk_size, b5⟩ := p6
              simp only [h6] at h
              obtain ⟨hcs, hb5, he5⟩ := leVal_inv 4 b4 chunk_size b5 hb4 h6
              cases h7 : readI64 b5 with
              | none => simp only [h7] at h; exact Except.noConfusion h
              | some p7 =>
                obtain ⟨nse, b6⟩ := p7
                simp only [h7] at h
                obtain ⟨hnlo, hnhi, hb6, he6⟩ := readI64_inv b5 nse b6 hb5 h7
                cases h8 : readI64 b6 with
                | none => simp only [h8] at h; exact Except.noConfusion h
                | some p8 =>
                  obtain ⟨ose, b7⟩ := p8
                  simp only [h8] at h
                  obtain ⟨holo, hohi, hb7, he7⟩ := readI64_inv b6 ose b7 hb6 h8
                  unfold read_laz_items_from at h
                  cases h9 : leVal 2 b7 with
                  | none => simp only [h9] at h; exact Except.noConfusion h
                  | some p9 =>
                    obtain ⟨n, b8⟩ := p9
                    simp only [h9] at h
                    obtain ⟨hn, hb8, he8⟩ := leVal_inv 2 b7 n b8 hb7 h9
                    cases h10 : readLazItemsLoop n b8 with
                    | error e => simp only [h10] at h; exact Except.noConfusion h
                    | ok p10 =>
                      obtain ⟨items, b9⟩ := p10
                      simp only [h10, Except.ok.injEq, Prod.mk.injEq] at h
                      obtain ⟨hv, hr⟩ := h
                      obtain ⟨hilen, hiall, hb9, he9⟩ :=
                        readLazItemsLoop_inv n b8 items b9 hb8 h10
                      subst hv; subst hr
                      constructor
                      · simp only [LazVlr.wfb, Bool.and_eq_true, decide_eq_true_eq]
                        norm_num at hcoder hopt hcs hn
                        exact ⟨⟨⟨⟨⟨⟨⟨⟨⟨⟨⟨hcoder, hmaj⟩, hmin⟩, hrev⟩, hopt⟩,
                          hcs⟩, hnlo⟩, hnhi⟩, holo⟩, hohi⟩, by omega⟩, hiall⟩
                      refine ⟨hb9, ?_⟩
                      simp only [LazVlr.write_to, write_laz_items_to,
                        List.append_assoc, hcode, hilen]
                      rw [Nat.mod_eq_of_lt (by norm_num at hn ⊢; omega)]
                      simp only [he9, he8, he7, he6, he5, he4, he3, he2, he1]

/-- A helper: `from_u16` on a compressor code outside `{0,1,2,3}` yields
nothing. -/
theorem compressorTypeFromU16None (t : Nat)
    (h : ¬(t = 0 ∨ t = 1 ∨ t = 2 ∨ t = 3)) :
    CompressorType.from_u16 t = none := by
  unfold CompressorType.from_u16
  split_ifs <;> tauto

/-- A helper: `from_u16` on an item code outside `{0,6,7,8,10,11,12,14}`
yields nothing, whatever the size argument. -/
theorem lazItemTypeFromU16None (t s : Nat)
    (h : ¬(t = 0 ∨ t = 6 ∨ t = 7 ∨ t = 8 ∨ t = 10 ∨ t = 11 ∨ t = 12 ∨ t = 14)) :
    LazItemType.from_u16 t s = none := by
  unfold LazItemType.from_u16
  split_ifs <;> tauto

/-! ### Concrete fixtures used by witnesses and counterexamples -/

/-- A GPS-time item with its default version, as produced by the builders. -/
def gpsItem : LazItem := LazItem.new LazItemType.GpsTime 2

/-- A small decodable `LazVlr` fixture. -/
def c1Vlr : LazVlr :=
  { compressor := CompressorType.PointWiseChunked
    coder := 0
    version := Version.default
    options := 0
    chunk_size := 50000
    number_of_special_evlrs := -1
    offset_to_special_evlrs := -1
    items := [gpsItem] }

/-- `c1Vlr`'s encoding followed by one trailing garbage byte. -/
def c1TrailingBuf : List Nat := c1Vlr.write_to ++ [7]

/-- A `LazVlr` whose item sizes sum to 80000, beyond the u16 range. -/
def c5Vlr : LazVlr :=
  { compressor := CompressorType.PointWiseChunked
    coder := 0
    version := Version.default
    options := 0
    chunk_size := 50000
    number_of_special_evlrs := -1
    offset_to_special_evlrs := -1
    items := [{ item_type := LazItemType.Byte 40000, size := 40000, version := 2 },
              { item_type := LazItemType.Byte14 40000, size := 40000, version := 3 }] }

/-- A `LazVlr` with the variable-chunk-size sentinel. -/
def c6VarVlr : LazVlr := { c1Vlr with chunk_size := 4294967295 }

/-- A `LazVlr` with chunk size 0. -/
def c6FixVlr : LazVlr := { c1Vlr with chunk_size := 0 }

/-! ### Claims -/

/-- Claim C3: `LazVlr::from_laz_items` sets the compressor from the first
item's version — version 1 or 2 yields PointWiseChunked, version 3 or 4
yields LayeredChunked, using only the first item — and fails hard (a panic,
modelled as `none`) when the item list is empty or the first item's version
is outside `{1,2,3,4}`. -/
theorem claim3_from_laz_items_compressor :
    LazVlr.from_laz_items [] = none ∧
    (∀ (it : LazItem) (rest : List LazItem), it.version = 1 ∨ it.version = 2 →
      LazVlr.from_laz_items (it :: rest) =
        some { compressor := CompressorType.PointWiseChunked, coder := 0,
               version := Version.default, options := 0,
               chunk_size := DEFAULT_CHUNK_SIZE, number_of_special_evlrs := -1,
               offset_to_special_evlrs := -1, items := it :: rest }) ∧
    (∀ (it : LazItem) (rest : List LazItem), it.version = 3 ∨ it.version = 4 →
      LazVlr.from_laz_items (it :: rest) =
        some { compressor := CompressorType.LayeredChunked, coder := 0,
               version := Version.default, options := 0,
               chunk_size := DEFAULT_CHUNK_SIZE, number_of_special_evlrs := -1,
               offset_to_special_evlrs := -1, items := it :: rest }) ∧
    (∀ (it : LazItem) (rest : List LazItem),
      ¬(it.version = 1 ∨ it.version = 2 ∨ it.version = 3 ∨ it.version = 4) →
      LazVlr.from_laz_items (it :: rest) = none) := by
  refine ⟨rfl, ?_, ?_, ?_⟩
  · intro it rest h
    simp [LazVlr.from_laz_items, CompressorType.from_item_version, h]
  · intro it rest h
    have h2 : ¬(it.version = 1 ∨ it.version = 2) := by omega
    simp [LazVlr.from_laz_items, CompressorType.from_item_version, h, h2]
  · intro it rest h
    have h1 : ¬(it.version = 1 ∨ it.version = 2) := by tauto
    have h2 : ¬(it.version = 3 ∨ it.version = 4) := by tauto
    simp [LazVlr.from_laz_items, CompressorType.from_item_version, h1, h2]

/-- Witness for C3: concrete instances of each branch. -/
theorem claim3_witness :
    LazVlr.from_laz_items [gpsItem] =
      some { compressor := CompressorType.PointWiseChunked, coder := 0,
             version := Version.default, options := 0,
             chunk_size := DEFAULT_CHUNK_SIZE, number_of_special_evlrs := -1,
             offset_to_special_evlrs := -1, items := [gpsItem] } ∧
    LazVlr.from_laz_items [LazItem.new LazItemType.Point14 3] =
      some { compressor := CompressorType.LayeredChunked, coder := 0,
             version := Version.default, options := 0,
             chunk_size := DEFAULT_CHUNK_SIZE, number_of_special_evlrs := -1,
             offset_to_special_evlrs := -1,
             items := [LazItem.new LazItemType.Point14 3] } ∧
    LazVlr.from_laz_items [LazItem.new LazItemType.GpsTime 7] = none :=
  ⟨claim3_from_laz_items_compressor.2.1 gpsItem [] (Or.inr rfl),
   claim3_from_laz_items_compressor.2.2.1 (LazItem.new LazItemType.Point14 3) []
     (Or.inl rfl),
   claim3_from_laz_items_compressor.2.2.2 (LazItem.new LazItemType.GpsTime 7) []
     (by decide)⟩

/-- Claim C5 fails on the code: `items_size` computes the sum in u16
(wrapping) and only then widens, so two 40000-byte extra-bytes items yield
14464, not the mathematical sum 80000. -/
theorem claim5_items_size_wraps :
    c5Vlr.items_size = 14464 ∧
    (c5Vlr.items.map LazItem.size).sum = 80000 ∧
    c5Vlr.items_size ≠ (c5Vlr.items.map LazItem.size).sum := by decide

/-- Claim C6: `uses_variable_size_chunks` is true iff `chunk_size` equals
`0xFFFFFFFF = 4294967295`, and false for every other value. -/
theorem claim6_uses_variable_size_chunks (v : LazVlr) :
    v.uses_variable_size_chunks = true ↔ v.chunk_size = 4294967295 := by
  simp [LazVlr.uses_variable_size_chunks, LazVlr.VARIABLE_CHUNK_SIZE]

/-- Witness for C6: the sentinel reads back as variable, chunk size 0 does
not. -/
theorem claim6_witness :
    c6VarVlr.uses_variable_size_chunks = true ∧
    c6FixVlr.uses_variable_size_chunks ≠ true :=
  ⟨(claim6_uses_variable_size_chunks c6VarVlr).mpr rfl,
   fun h => by
     have h2 := (claim6_uses_variable_size_chunks c6FixVlr).mp h
     norm_num [c6FixVlr, c1Vlr] at h2⟩

/-- Counterexample to claim C1 as stated: a buffer consisting of a valid
header followed by one trailing byte decodes successfully via `read_from`
(the trailing byte is simply left unconsumed), but `write_to` on the result
does not reproduce the buffer byte for byte. -/
theorem claim1_counterexample :
    LazVlr.read_from c1TrailingBuf = Except.ok (c1Vlr, [7]) ∧
    c1Vlr.write_to ≠ c1TrailingBuf := by
  constructor
  · exact lazVlrEncodeDecode c1Vlr [7] (by decide)
  · intro h
    have h2 := congrArg List.length h
    simp [c1TrailingBuf] at h2

/-- Claim C1 (amended): for every byte buffer that decodes successfully via
`LazVlr::read_from`, `write_to` on the result reproduces exactly the prefix
of the buffer that `read_from` consumed — `write_to(vlr) ++ rest = buffer`
where `rest` is the unconsumed suffix; in particular the whole buffer is
reproduced byte for byte whenever `read_from` consumed it entirely. -/
theorem claim1_roundtrip_amended (b : List Nat) (vlr : LazVlr) (rest : List Nat)
    (hb : ∀ x ∈ b, x < 256)
    (h : LazVlr.read_from b = Except.ok (vlr, rest)) :
    vlr.write_to ++ rest = b :=
  (lazVlrDecodeInv b vlr rest hb h).2.2

/-- Witness for C1 (amended) at a concrete buffer. -/
theorem claim1_witness : c1Vlr.write_to ++ [7] = c1TrailingBuf :=
  claim1_roundtrip_amended c1TrailingBuf c1Vlr [7] (by decide) (by rfl)

/-- Claim C7: `default_for_point_format_id(id, n)` returns Ok with a
non-empty item list whose first item's version is the format's documented
default (2 for the legacy formats 0–3, 3 for the extended formats 6–8), and
fails with `UnsupportedPointFormat` carrying the id for every other id. -/
theorem claim7_default_for_point_format_id :
    (∀ id n, id = 0 ∨ id = 1 ∨ id = 2 ∨ id = 3 →
      ∃ items, LazItemRecordBuilder.default_for_point_format_id id n =
          Except.ok items ∧ items ≠ [] ∧ items.headI.version = 2) ∧
    (∀ id n, id = 6 ∨ id = 7 ∨ id = 8 →
      ∃ items, LazItemRecordBuilder.default_for_point_format_id id n =
          Except.ok items ∧ items ≠ [] ∧ items.headI.version = 3) ∧
    (∀ id n, ¬(id = 0 ∨ id = 1 ∨ id = 2 ∨ id = 3 ∨ id = 6 ∨ id = 7 ∨ id = 8) →
      LazItemRecordBuilder.default_for_point_format_id id n =
        Except.error (LasZipError.UnsupportedPointFormat id)) := by
  refine ⟨?_, ?_, ?_⟩
  · intro id n h
    rcases h with rfl | rfl | rfl | rfl
    · exact ⟨_, rfl,
        by simp [LazItemRecordBuilder.point0DefaultItems, stampDefaults],
        by simp [LazItemRecordBuilder.point0DefaultItems, stampDefaults,
          LazItemType.default_version]⟩
    · exact ⟨_, rfl,
        by simp [LazItemRecordBuilder.point1DefaultItems, stampDefaults],
        by simp [LazItemRecordBuilder.point1DefaultItems, stampDefaults,
          LazItemType.default_version]⟩
    · exact ⟨_, rfl,
        by simp [LazItemRecordBuilder.point2DefaultItems, stampDefaults],
        by simp [LazItemRecordBuilder.point2DefaultItems, stampDefaults,
          LazItemType.default_version]⟩
    · exact ⟨_, rfl,
        by simp [LazItemRecordBuilder.point3DefaultItems, stampDefaults],
        by simp [LazItemRecordBuilder.point3DefaultItems, stampDefaults,
          LazItemType.default_version]⟩
  · intro id n h
    rcases h with rfl | rfl | rfl
    · exact ⟨_, rfl,
        by simp [LazItemRecordBuilder.point6DefaultItems, stampDefaults],
        by simp [LazItemRecordBuilder.point6DefaultItems, stampDefaults,
          LazItemType.default_version]⟩
    · exact ⟨_, rfl,
        by simp [LazItemRecordBuilder.point7DefaultItems, stampDefaults],
        by simp [LazItemRecordBuilder.point7DefaultItems, stampDefaults,
          LazItemType.default_version]⟩
    · exact ⟨_, rfl,
        by simp [LazItemRecordBuilder.point8DefaultItems, stampDefaults],
        by simp [LazItemRecordBuilder.point8DefaultItems, stampDefaults,
          LazItemType.default_version]⟩
  · intro id n h
    unfold LazItemRecordBuilder.default_for_point_format_id
    split_ifs <;> tauto

/-- Witness for C7: format 1 defaults to version 2, format 7 to version 3,
and id 4 is rejected. -/
theorem claim7_witness :
    (∃ items, LazItemRecordBuilder.default_for_point_format_id 1 0 =
        Except.ok items ∧ items ≠ [] ∧ items.headI.version = 2) ∧
    (∃ items, LazItemRecordBuilder.default_for_point_format_id 7 5 =
        Except.ok items ∧ items ≠ [] ∧ items.headI.version = 3) ∧
    LazItemRecordBuilder.default_for_point_format_id 4 0 =
      Except.error (LasZipError.UnsupportedPointFormat 4) :=
  ⟨claim7_default_for_point_format_id.1 1 0 (by decide),
   claim7_default_for_point_format_id.2.1 7 5 (by decide),
   claim7_default_for_point_format_id.2.2 4 0 (by decide)⟩

/-- `build` in terms of `from_laz_items`: overwrite `chunk_size` with the
builder's. -/
theorem LazVlrBuilder.build_eq (b : LazVlrBuilder) (vlr0 : LazVlr)
    (h : LazVlr.from_laz_items b.items = some vlr0) :
    b.build = some { vlr0 with chunk_size := b.chunk_size } := by
  unfold LazVlrBuilder.build
  rw [h]

/-- Claim C8: `LazVlrBuilder::build` produces the `from_laz_items` result
with `chunk_size` overwritten: the fixed value set by
`with_fixed_chunk_size`, the sentinel `0xFFFFFFFF` after
`with_variable_chunk_size` (making `uses_variable_size_chunks` true), or
the default 50000 when no chunk-size method is called. -/
theorem claim8_builder_build (items : List LazItem) (vlr0 : LazVlr)
    (h : LazVlr.from_laz_items items = some vlr0) :
    (∀ cs, ((LazVlrBuilder.new items).with_fixed_chunk_size cs).build =
      some { vlr0 with chunk_size := cs }) ∧
    ((LazVlrBuilder.new items).with_variable_chunk_size.build =
      some { vlr0 with chunk_size := 4294967295 }) ∧
    ({ vlr0 with chunk_size := 4294967295 } : LazVlr).uses_variable_size_chunks
      = true ∧
    ((LazVlrBuilder.new items).build = some { vlr0 with chunk_size := 50000 }) :=
  ⟨fun cs => LazVlrBuilder.build_eq _ vlr0 h,
   LazVlrBuilder.build_eq _ vlr0 h,
   by simp [LazVlr.uses_variable_size_chunks, LazVlr.VARIABLE_CHUNK_SIZE],
   LazVlrBuilder.build_eq _ vlr0 h⟩

/-- Witness for C8 at a one-item list. -/
theorem claim8_witness :
    ((LazVlrBuilder.new [gpsItem]).with_fixed_chunk_size 60000).build =
      some { c1Vlr with chunk_size := 60000 } ∧
    (LazVlrBuilder.new [gpsItem]).with_variable_chunk_size.build =
      some { c1Vlr with chunk_size := 4294967295 } ∧
    (LazVlrBuilder.new [gpsItem]).build = some { c1Vlr with chunk_size := 50000 } := by
  have h : LazVlr.from_laz_items [gpsItem] = some c1Vlr := by rfl
  exact ⟨(claim8_builder_build [gpsItem] c1Vlr h).1 60000,
    (claim8_builder_build [gpsItem] c1Vlr h).2.1,
    (claim8_builder_build [gpsItem] c1Vlr h).2.2.2⟩

/-- Claim C9: `write_to` writes the item count as the list length reduced
modulo 2^16 (`len as u16`): the written count equals the true length
exactly for lists of at most 65535 items, yet `from_laz_items` accepts
longer lists, for which the written count differs from the number of items
actually serialized after it (all of them). -/
theorem claim9_num_items_truncation :
    (∀ items : List LazItem,
      write_laz_items_to items =
        leBytes 2 (items.length % 65536) ++ writeItemsBody items) ∧
    (∀ items : List LazItem, items.length < 65536 →
      items.length % 65536 = items.length) ∧
    (∀ items : List LazItem, 65536 ≤ items.length →
      items.length % 65536 ≠ items.length) ∧
    (∀ (it : LazItem) (rest : List LazItem),
      it.version = 1 ∨ it.version = 2 ∨ it.version = 3 ∨ it.version = 4 →
      (LazVlr.from_laz_items (it :: rest)).isSome = true) := by
  refine ⟨fun items => rfl, fun items h => Nat.mod_eq_of_lt h, ?_, ?_⟩
  · intro items h
    have h2 := Nat.mod_lt items.length (show 0 < 65536 by norm_num)
    omega
  · intro it rest h
    have h2 : CompressorType.from_item_version it.version =
        some CompressorType.PointWiseChunked ∨
        CompressorType.from_item_version it.version =
        some CompressorType.LayeredChunked := by
      unfold CompressorType.from_item_version
      rcases h with h | h | h | h <;> simp [h]
    unfold LazVlr.from_laz_items
    rcases h2 with h2 | h2 <;> simp [h2]

/-- Witness for C9: the truncation facts at a 1-item list and a
65536-item list, and acceptance of the long list by `from_laz_items`. -/
theorem claim9_witness :
    write_laz_items_to [gpsItem] =
      leBytes 2 ([gpsItem].length % 65536) ++ writeItemsBody [gpsItem] ∧
    [gpsItem].length % 65536 = [gpsItem].length ∧
    (List.replicate 65536 gpsItem).length % 65536 ≠
      (List.replicate 65536 gpsItem).length ∧
    (LazVlr.from_laz_items (gpsItem :: List.replicate 65535 gpsItem)).isSome
      = true :=
  ⟨claim9_num_items_truncation.1 [gpsItem],
   claim9_num_items_truncation.2.1 [gpsItem] (by decide),
   claim9_num_items_truncation.2.2.1 (List.replicate 65536 gpsItem)
     (by simp only [List.length_replicate]; exact Nat.le_refl 65536),
   claim9_num_items_truncation.2.2.2 gpsItem (List.replicate 65535 gpsItem)
     (Or.inr (Or.inl rfl))⟩

/-- The wire bytes of an item whose code is 6 (legacy point record) but
whose size field is 99, differing from the 20-byte inherent size. -/
def c10Bytes : List Nat := leBytes 2 6 ++ leBytes 2 99 ++ leBytes 2 2

/-- The item decoded from `c10Bytes`. -/
def c10Item : LazItem := { item_type := LazItemType.Point10, size := 99, version := 2 }

/-- Claim C10: `LazItem::read_from` stores the wire's size field verbatim
for every fixed-size variant with no check against the variant's inherent
size, so a successfully decoded item may have `size()` different from its
item type's inherent size (witnessed by a code-6 item with size 99). -/
theorem claim10_size_stored_verbatim :
    (∀ t s v extra, (t = 6 ∨ t = 7 ∨ t = 8 ∨ t = 10 ∨ t = 11 ∨ t = 12) →
      s < 65536 → v < 65536 →
      ∀ ty, LazItemType.from_u16 t s = some ty →
        LazItem.read_from (leBytes 2 t ++ leBytes 2 s ++ leBytes 2 v ++ extra) =
          Except.ok ({ item_type := ty, size := s, version := v }, extra)) ∧
    (LazItem.read_from c10Bytes = Except.ok (c10Item, []) ∧
      c10Item.size ≠ c10Item.item_type.size) := by
  constructor
  · intro t s v extra ht hs hv ty hty
    have ht16 : t < 65536 := by rcases ht with rfl | rfl | rfl | rfl | rfl | rfl <;> norm_num
    simp only [List.append_assoc, LazItem.read_from, leVal2_leBytes,
      Nat.mod_eq_of_lt ht16, Nat.mod_eq_of_lt hs, Nat.mod_eq_of_lt hv, hty]
  · exact ⟨rfl, by decide⟩

/-- Witness for C10: a GPS-time item decoded with a size of 12. -/
theorem claim10_witness :
    LazItem.read_from (leBytes 2 7 ++ leBytes 2 12 ++ leBytes 2 2 ++ []) =
      Except.ok ({ item_type := LazItemType.GpsTime, size := 12, version := 2 }, []) :=
  claim10_size_stored_verbatim.1 7 12 2 [] (Or.inr (Or.inl rfl))
    (by norm_num) (by norm_num) LazItemType.GpsTime rfl

/-- A builder holding 65536 identical GPS-time items. -/
def c2BigBuilder : LazVlrBuilder :=
  { items := List.replicate 65536 gpsItem, chunk_size := 50000 }

/-- The `LazVlr` built from `c2BigBuilder`. -/
def c2BigVlr : LazVlr :=
  { compressor := CompressorType.PointWiseChunked
    coder := 0
    version := Version.default
    options := 0
    chunk_size := 50000
    number_of_special_evlrs := -1
    offset_to_special_evlrs := -1
    items := List.replicate 65536 gpsItem }

/-- Counterexample to claim C2 as stated: a `LazVlr` produced by
`LazVlrBuilder` from 65536 items round-trips to a `LazVlr` with zero items
(the u16 item count wraps to 0), so the decoded value is not equal in all
fields to the original. -/
theorem claim2_counterexample :
    c2BigBuilder.build = some c2BigVlr ∧
    Except.map (fun p => p.1.items.length) (LazVlr.read_from c2BigVlr.write_to)
      = Except.ok 0 ∧
    c2BigVlr.items.length = 65536 := by
  refine ⟨rfl, ?_, by
    simp only [c2BigVlr]
    exact List.length_replicate 65536 gpsItem⟩
  have hlen : (List.replicate 65536 gpsItem).length % 65536 = 0 := by
    simp only [List.length_replicate]
  simp only [c2BigVlr, LazVlr.write_to, write_laz_items_to, hlen,
    List.append_assoc]
  simp only [LazVlr.read_from, leVal2_leBytes, leVal4_leBytes,
    versionEncodeDecode Version.default _ (by decide) (by decide)
      (by decide),
    readI64_i64Bytes (-1) _ (by norm_num) (by norm_num),
    read_laz_items_from, readLazItemsLoop]
  rfl

/-- Claim C2 (amended): for every `LazVlr` produced by `LazVlrBuilder` from
publicly-constructible items — each item's fields fit u16 and an
extra-bytes payload agrees with its size field — with at most 65535 items
and a chunk_size fitting u32, `write_to` followed by `read_from` yields a
`LazVlr` equal in all fields to the original, with no bytes left over. -/
theorem claim2_roundtrip_amended (bld : LazVlrBuilder) (vlr : LazVlr)
    (hb : bld.build = some vlr)
    (hlen : bld.items.length < 65536)
    (hall : bld.items.all LazItem.wfb = true)
    (hcs : bld.chunk_size < 4294967296) :
    LazVlr.read_from vlr.write_to = Except.ok (vlr, []) := by
  unfold LazVlrBuilder.build at hb
  cases h0 : LazVlr.from_laz_items bld.items with
  | none => simp only [h0] at hb; exact Option.noConfusion hb
  | some vlr0 =>
    simp only [h0, Option.some.injEq] at hb
    subst hb
    unfold LazVlr.from_laz_items at h0
    cases h1 : bld.items.head? with
    | none => simp only [h1] at h0; exact Option.noConfusion h0
    | some first =>
      simp only [h1] at h0
      cases h2 : CompressorType.from_item_version first.version with
      | none => simp only [h2] at h0; exact Option.noConfusion h0
      | some comp =>
        simp only [h2, Option.some.injEq] at h0
        subst h0
        have hwf : LazVlr.wfb
            { compressor := comp, coder := 0, version := Version.default,
              options := 0, chunk_size := bld.chunk_size,
              number_of_special_evlrs := -1, offset_to_special_evlrs := -1,
              items := bld.items } = true := by
          simp only [LazVlr.wfb, Bool.and_eq_true, decide_eq_true_eq]
          exact ⟨⟨⟨⟨⟨⟨⟨⟨⟨⟨⟨by norm_num, by norm_num [Version.default]⟩,
            by norm_num [Version.default]⟩, by norm_num [Version.default]⟩,
            by norm_num⟩, hcs⟩, by norm_num⟩, by norm_num⟩, by norm_num⟩,
            by norm_num⟩, hlen⟩, hall⟩
        have h3 := lazVlrEncodeDecode _ [] hwf
        rwa [List.append_nil] at h3

/-- Witness for C2 (amended): a one-item builder with chunk size 60000
round-trips exactly. -/
theorem claim2_witness :
    LazVlr.read_from ({ c1Vlr with chunk_size := 60000 } : LazVlr).write_to =
      Except.ok (({ c1Vlr with chunk_size := 60000 } : LazVlr), []) :=
  claim2_roundtrip_amended ((LazVlrBuilder.new [gpsItem]).with_fixed_chunk_size 60000)
    { c1Vlr with chunk_size := 60000 } (by rfl) (by decide) (by decide) (by decide)

theorem leVal_two_cons (b0 b1 : Nat) (rest : List Nat) :
    leVal 2 (b0 :: b1 :: rest) = some (b0 + 256 * b1, rest) := by
  simp [leVal]

/-- For a code in `{0,1,2,3}`, `from_u16` succeeds. -/
theorem CompressorType.from_u16_isSome (c : Nat)
    (h : c = 0 ∨ c = 1 ∨ c = 2 ∨ c = 3) :
    ∃ comp, CompressorType.from_u16 c = some comp := by
  rcases h with rfl | rfl | rfl | rfl <;> exact ⟨_, rfl⟩

/-- Reading more items than the well-formed prefix provides hits the first
invalid item code and fails with exactly that code. -/
theorem readLazItemsLoop_first_bad (pre : List LazItem) (m t s : Nat)
    (extra : List Nat) (hall : pre.all LazItem.wfb = true) (ht : t < 65536)
    (hbad : ¬(t = 0 ∨ t = 6 ∨ t = 7 ∨ t = 8 ∨ t = 10 ∨ t = 11 ∨ t = 12 ∨
      t = 14)) :
    readLazItemsLoop (pre.length + 1 + m)
      (writeItemsBody pre ++ leBytes 2 t ++ leBytes 2 s ++ extra) =
      Except.error (LasZipError.UnknownLazItem t) := by
  induction pre with
  | nil =>
    have hshape : ([] : List LazItem).length + 1 + m = m + 1 := by simp; omega
    rw [hshape]
    simp only [writeItemsBody, List.nil_append, List.append_assoc,
      readLazItemsLoop, LazItem.read_from, leVal2_leBytes,
      Nat.mod_eq_of_lt ht, lazItemTypeFromU16None t _ hbad]
  | cons it pre' ih =>
    have hshape : (it :: pre').length + 1 + m = (pre'.length + 1 + m) + 1 := by
      simp [List.length_cons]; omega
    rw [hshape]
    simp only [List.all_cons, Bool.and_eq_true] at hall
    have ih' := ih hall.2
    simp only [List.append_assoc] at ih' ⊢
    simp only [writeItemsBody, List.append_assoc, readLazItemsLoop,
      lazItemEncodeDecode it _ hall.1, ih']

/-- The fixed 34-byte header prefix assembled from raw field values, ending
with the item count. -/
def rawHeaderBytes (c coder maj minr rev opts cs : Nat) (nse ose : Int)
    (n : Nat) : List Nat :=
  leBytes 2 c ++ leBytes 2 coder ++ leBytes 1 maj ++ leBytes 1 minr ++
    leBytes 2 rev ++ leBytes 4 opts ++ leBytes 4 cs ++ i64Bytes nse ++
    i64Bytes ose ++ leBytes 2 n

/-- Claim C4: `LazVlr::read_from` fails immediately with an error carrying
the offending raw value — the model is total, so it never panics, and an
`Except.error` carries no partial object — on the first compressor code
outside `{0,1,2,3}` or the first item code outside `{0,6,7,8,10,11,12,14}`;
every other numeric field is accepted as-is (any well-formed field values
decode successfully). -/
theorem claim4_read_from_errors :
    (∀ b0 b1 rest,
      ¬(b0 + 256 * b1 = 0 ∨ b0 + 256 * b1 = 1 ∨ b0 + 256 * b1 = 2 ∨
        b0 + 256 * b1 = 3) →
      LazVlr.read_from (b0 :: b1 :: rest) =
        Except.error (LasZipError.UnknownCompressorType (b0 + 256 * b1))) ∧
    (∀ c coder maj minr rev opts cs nse ose n (pre : List LazItem) t s extra,
      c = 0 ∨ c = 1 ∨ c = 2 ∨ c = 3 →
      -(2 ^ 63) ≤ nse → nse < 2 ^ 63 → -(2 ^ 63) ≤ ose → ose < 2 ^ 63 →
      n < 65536 → pre.length < n → pre.all LazItem.wfb = true →
      t < 65536 →
      ¬(t = 0 ∨ t = 6 ∨ t = 7 ∨ t = 8 ∨ t = 10 ∨ t = 11 ∨ t = 12 ∨ t = 14) →
      LazVlr.read_from (rawHeaderBytes c coder maj minr rev opts cs nse ose n ++
          writeItemsBody pre ++ leBytes 2 t ++ leBytes 2 s ++ extra) =
        Except.error (LasZipError.UnknownLazItem t)) ∧
    (∀ v : LazVlr, v.wfb = true →
      LazVlr.read_from v.write_to = Except.ok (v, [])) := by
  refine ⟨?_, ?_, ?_⟩
  · intro b0 b1 rest h
    simp only [LazVlr.read_from, leVal_two_cons,
      compressorTypeFromU16None _ h]
  · intro c coder maj minr rev opts cs nse ose n pre t s extra hc hnlo hnhi
      holo hohi hn hpre hall ht hbad
    obtain ⟨comp, hcomp⟩ := CompressorType.from_u16_isSome c hc
    have hc16 : c < 65536 := by rcases hc with rfl | rfl | rfl | rfl <;> norm_num
    have hsplit : n = pre.length + 1 + (n - pre.length - 1) := by omega
    simp only [rawHeaderBytes, List.append_assoc]
    simp only [LazVlr.read_from, leVal2_leBytes, Nat.mod_eq_of_lt hc16, hcomp,
      Version.read_from, leVal1_leBytes, leVal4_leBytes,
      readI64_i64Bytes nse _ hnlo hnhi, readI64_i64Bytes ose _ holo hohi,
      read_laz_items_from, Nat.mod_eq_of_lt hn]
    rw [hsplit]
    have hfb := readLazItemsLoop_first_bad pre (n - pre.length - 1) t s extra
      hall ht hbad
    simp only [List.append_assoc] at hfb
    rw [hfb]
  · intro v hv
    have h3 := lazVlrEncodeDecode v [] hv
    rwa [List.append_nil] at h3

/-- Witness for C4: compressor code 4 rejected with code 4, item code 1
rejected with code 1, and a complete well-formed header accepted. -/
theorem claim4_witness :
    LazVlr.read_from [4, 0] =
      Except.error (LasZipError.UnknownCompressorType 4) ∧
    LazVlr.read_from (rawHeaderBytes 2 0 2 2 0 0 50000 (-1) (-1) 1 ++
        writeItemsBody [] ++ leBytes 2 1 ++ leBytes 2 0 ++ []) =
      Except.error (LasZipError.UnknownLazItem 1) ∧
    LazVlr.read_from c1Vlr.write_to = Except.ok (c1Vlr, []) :=
  ⟨by
    have h := claim4_read_from_errors.1 4 0 [] (by decide)
    simpa using h,
   claim4_read_from_errors.2.1 2 0 2 2 0 0 50000 (-1) (-1) 1 [] 1 0 []
     (by decide) (by norm_num) (by norm_num) (by norm_num) (by norm_num)
     (by decide) (by decide) rfl (by decide) (by decide),
   claim4_read_from_errors.2.2 c1Vlr (by decide)⟩

end LazRs
